import Mathlib

/-!
Shallow embedding of the WPServer repository (src/server.py and
src/transform_rankings.py) and proofs of the frozen claims about it.

Python dictionaries are modelled as insertion-ordered association lists with
unique keys maintained by the insertion operation; Python floats are modelled
exactly as rationals (the server only divides and copies them, it never relies
on rounding); `time.time()` is passed in as an explicit rational `now`.
-/

/-- Python runtime values as they appear in Mongo documents, cache payloads and
JSON response bodies: None, bool, int, float (modelled exactly as a rational),
str, list, and dict (insertion-ordered, string-keyed, as JSON objects are). -/
inductive PyVal where
  | pnull
  | pbool (b : Bool)
  | pint (n : ℤ)
  | prat (q : ℚ)
  | pstr (s : String)
  | plist (xs : List PyVal)
  | pdict (fs : List (String × PyVal))

open PyVal

/-- A Mongo document (or a JSON object) flattened to its ordered field list. -/
abbrev Doc := List (String × PyVal)

/-- Python truthiness (`if x:`) for the modelled values. -/
def pyTruthy : PyVal → Bool
  | pnull => false
  | pbool b => b
  | pint n => n ≠ 0
  | prat q => q ≠ 0
  | pstr s => s ≠ ""
  | plist xs => ¬xs.isEmpty
  | pdict fs => ¬fs.isEmpty

/-- Truthiness of a Python expression that may be None-for-missing
(`if cached_data:` where `cached_data` came back from a lookup). -/
def optTruthy : Option PyVal → Bool
  | none => false
  | some v => pyTruthy v

/-- Dictionary read `d[k]` / `d.get(k)` as an optional value: the entry with
the key (keys are unique in any dict built by `dictSet`, where the first
occurrence is the only one). -/
def lookupAssoc {α : Type} : List (String × α) → String → Option α
  | [], _ => none
  | e :: fs, k => if e.1 == k then some e.2 else lookupAssoc fs k

/-- Dictionary read on a document. -/
def lookupField (fs : List (String × PyVal)) (k : String) : Option PyVal :=
  lookupAssoc fs k

/-- `d.get(k)` with Python's None default. -/
def pyGet (fs : Doc) (k : String) : PyVal :=
  (lookupField fs k).getD pnull

/-- Dictionary write `d[k] = v`: overwrite in place if the key is present
(keeping its position, as CPython dicts do), else append. -/
def dictSet {α : Type} : List (String × α) → String → α → List (String × α)
  | [], k, v => [(k, v)]
  | e :: fs, k, v => if e.1 == k then (k, v) :: fs else e :: dictSet fs k v

/-- Python `len(x)`: defined for str, list and dict; anything else raises
(`none` models the TypeError). -/
def pyLen : PyVal → Option ℕ
  | pstr s => some s.length
  | plist xs => some xs.length
  | pdict fs => some fs.length
  | _ => none

/-- ASCII whitespace, as str.strip removes it.  (The further Unicode
whitespace CPython strips is not modelled; no claim depends on it.) -/
def isSpaceChar (c : Char) : Bool :=
  c == ' ' || c == '\t' || c == '\n' || c == '\r' ||
    c == Char.ofNat 11 || c == Char.ofNat 12

/-- Python str.strip(): drop whitespace from both ends. -/
def pyStrip (s : String) : String :=
  String.mk (((s.data.dropWhile isSpaceChar).reverse.dropWhile
    isSpaceChar).reverse)

/-- ASCII lower-casing of one character. -/
def lowerChar (c : Char) : Char :=
  if 'A' ≤ c ∧ c ≤ 'Z' then Char.ofNat (c.toNat + 32) else c

/-- Python str.lower() on the ASCII range (the team tables and rank keys are
ASCII). -/
def pyLower (s : String) : String :=
  String.mk (s.data.map lowerChar)

/-- Split at every occurrence of a separator character, keeping empty
pieces, as Python str.split(sep) does for a one-character separator. -/
def splitOnChar (sep : Char) : List Char → List (List Char)
  | [] => [[]]
  | c :: rest =>
    if c == sep then [] :: splitOnChar sep rest
    else
      match splitOnChar sep rest with
      | [] => [[c]]
      | h :: t => (c :: h) :: t

/-- Python s.split(sep) for a one-character separator. -/
def pySplit (s : String) (sep : Char) : List String :=
  (splitOnChar sep s.data).map String.mk

/-- Digit run to a natural number. -/
def digitsToNat (cs : List Char) : ℕ :=
  cs.foldl (fun a c => a * 10 + (c.toNat - 48)) 0

/-- All characters are ASCII decimal digits. -/
def allDigits (cs : List Char) : Bool :=
  cs.all (fun c => c.isDigit)

/-- Python `int(s)` on a string: optional sign then a nonempty digit run,
surrounding whitespace stripped.  (Underscore separators and non-ASCII digits
accepted by CPython are not modelled; no claim depends on them.) -/
def pyParseIntString (s : String) : Option ℤ :=
  match (pyStrip s).data with
  | '+' :: rest =>
    if rest ≠ [] ∧ allDigits rest then some (digitsToNat rest) else none
  | '-' :: rest =>
    if rest ≠ [] ∧ allDigits rest then some (-(digitsToNat rest : ℤ)) else none
  | cs =>
    if cs ≠ [] ∧ allDigits cs then some (digitsToNat cs : ℤ) else none

/-- Unsigned decimal body of a float literal: digits, digits.digits,
digits., or .digits. -/
def parseFloatBody (cs : List Char) : Option ℚ :=
  match splitOnChar '.' cs with
  | [a] =>
    if a ≠ [] ∧ allDigits a then some (digitsToNat a : ℚ) else none
  | [a, b] =>
    if (a ≠ [] ∨ b ≠ []) ∧ allDigits a ∧ allDigits b then
      some ((digitsToNat a : ℚ) + (digitsToNat b : ℚ) / (10 ^ b.length : ℚ))
    else none
  | _ => none

/-- Python `float(s)` on a string: optional sign then a decimal body,
surrounding whitespace stripped.  (Exponent notation and inf/nan are not
modelled; no claim depends on them.) -/
def pyParseFloatString (s : String) : Option ℚ :=
  match (pyStrip s).data with
  | '+' :: rest => parseFloatBody rest
  | '-' :: rest => (parseFloatBody rest).map (fun q => -q)
  | cs => parseFloatBody cs

/-- Truncation toward zero, as Python `int()` applied to a float. -/
def ratTrunc (q : ℚ) : ℤ :=
  Int.tdiv q.num (q.den : ℤ)

/-- Python `float(v)` on a document value: numbers and booleans convert,
numeric strings parse, everything else raises (`none`). -/
def pyFloat : PyVal → Option ℚ
  | pint n => some (n : ℚ)
  | prat q => some q
  | pbool b => some (if b then 1 else 0)
  | pstr s => pyParseFloatString s
  | _ => none

/-- Python `int(v)` on a document value: ints and booleans convert, floats
truncate toward zero, integer strings parse, everything else raises. -/
def pyInt : PyVal → Option ℤ
  | pint n => some n
  | prat q => some (ratTrunc q)
  | pbool b => some (if b then 1 else 0)
  | pstr s => pyParseIntString s
  | _ => none

/-- Python `str(v)` as far as the server observes it.  Rank values are pushed
through `str(...).strip().lower()` and then compared against the 21 rank keys,
so only renderings that can equal one of those keys must be exact: None, bool,
str and integral numbers are exact; non-integral floats, lists and dicts are
rendered with a '.'/bracket character and can never equal a rank key, which is
all the code can observe of them. -/
def pyStrOf : PyVal → String
  | pnull => "None"
  | pbool b => if b then "True" else "False"
  | pint n => toString n
  | prat q => if q.den = 1 then toString q.num else toString q
  | pstr s => s
  | plist _ => "[list]"
  | pdict _ => "\x7bdict\x7d"

/-- RANK_ORDER from src/server.py: the string ranks 1..20 then "unranked". -/
def RANK_ORDER : List String :=
  (List.range' 1 20).map (fun i => toString i) ++ ["unranked"]

/-- TEAM_NAME_TO_ID from src/server.py, in source (dict-insertion) order. -/
def TEAM_NAME_TO_ID : List (String × ℤ) := [
  ("USC", 1),
  ("UCLA", 2),
  ("UC Berkeley", 3),
  ("Stanford", 4),
  ("California Baptist", 5),
  ("Long Beach State", 6),
  ("LMU", 7),
  ("Pepperdine", 8),
  ("San Jose State", 9),
  ("Santa Clara", 10),
  ("UC Davis", 11),
  ("UC Irvine", 12),
  ("UC San Diego", 13),
  ("UCSB", 14),
  ("George Washington", 15),
  ("Navy", 16),
  ("Harvard", 17),
  ("Princeton", 18),
  ("Fordham", 19),
  ("Iona", 20),
  ("Saint Francis", 21),
  ("Wagner", 22),
  ("Bucknell", 23),
  ("La Salle", 24),
  ("Brown", 25),
  ("Pacific", 26),
  ("Air Force", 27),
  ("UC-San Diego", 13),
  ("University of California Santa Barbara", 14),
  ("California", 3),
  ("Princeton University", 18),
  ("Cal Baptist", 5),
  ("Long Beach St.", 6),
  ("San Jose State University", 9),
  ("California Baptist University", 5),
  ("Bucknell University", 23),
  ("UCSD", 13),
  ("Brown University", 25),
  ("San Jose St.", 9),
  ("University of Southern California", 1),
  ("Fordham University", 19),
  ("Stanford University", 4),
  ("Pepperdine University", 8),
  ("Wagner College", 22),
  ("Santa Clara University", 10),
  ("Long Beach", 6),
  ("Cal", 3),
  ("University of the Pacific", 26),
  ("UC Santa Barbara", 14),
  ("Long Beach State University", 6),
  ("University of California-Los Angeles", 2),
  ("University of California-Santa Barbara", 14),
  ("University of California-San Diego", 13),
  ("University of California-Davis", 11),
  ("George Washington University", 15),
  ("United States Naval Academy", 16),
  ("United States Air Force Academy", 27),
  ("Harvard University", 17),
  ("Loyola Marymount University", 7),
  ("University of California-Irvine", 12),
  ("University of California", 3),
  ("Long Beach St", 6),
  ("SJSU Spartans", 9),
  ("UCI", 12),
  ("CBU", 5),
  ("Iona University", 20),
  ("southern-california", 1),
  ("San José State", 9),
  ("Iona College", 20),
  ("Loyola Marymount", 7),
  ("University of California Irvine", 12),
  ("University of California Davis", 11),
  ("Loyola-Marymount", 7),
  ("UC-Santa Barbara", 14),
  ("Southern California", 1),
  ("Air Force Academy", 27),
  ("Southern Cal", 1),
  ("UC-Irvine", 12),
  ("Cal-Baptist", 5),
  ("Claremont-Mudd-Scripps Colleges", 28),
  ("Concordia Univeristy (Calif.)", 29),
  ("Concordia University", 29),
  ("Concordia University (Calif.)", 29),
  ("Johns Hopkins University", 30),
  ("Massachusetts Institute of Technology", 31),
  ("Mercyhurst University", 32),
  ("Pomona Pitzer Colleges", 33),
  ("Pomona-Pitzer Colleges", 33),
  ("Salem University", 34),
  ("US Air Force Academy", 27),
  ("University of Redlands", 35),
  ("Whittier College", 36)]

/-- ID_TO_TEAM_NAME from src/server.py, in source order. -/
def ID_TO_TEAM_NAME : List (ℤ × String) := [
  (1, "USC"),
  (2, "UCLA"),
  (3, "UC Berkeley"),
  (4, "Stanford"),
  (5, "California Baptist"),
  (6, "Long Beach State"),
  (7, "LMU"),
  (8, "Pepperdine"),
  (9, "San Jose State"),
  (10, "Santa Clara"),
  (11, "UC Davis"),
  (12, "UC Irvine"),
  (13, "UC San Diego"),
  (14, "UCSB"),
  (15, "George Washington"),
  (16, "Navy"),
  (17, "Harvard"),
  (18, "Princeton"),
  (19, "Fordham"),
  (20, "Iona"),
  (21, "Saint Francis"),
  (22, "Wagner"),
  (23, "Bucknell"),
  (24, "La Salle"),
  (25, "Brown"),
  (26, "Pacific"),
  (27, "Air Force"),
  (28, "Claremont-Mudd-Scripps"),
  (29, "Concordia University"),
  (30, "Johns Hopkins"),
  (31, "MIT"),
  (32, "Mercyhurst"),
  (33, "Pomona-Pitzer"),
  (34, "Salem University"),
  (35, "University of Redlands"),
  (36, "Whittier College")]

/-- convert_team_name_to_id from src/server.py: empty input is unmapped; then
exact match against the table; then the first case-insensitive match in table
order; otherwise unmapped (None). -/
def convert_team_name_to_id (team_name : String) : Option ℤ :=
  if team_name == "" then none
  else
    let t := pyStrip team_name
    match lookupAssoc TEAM_NAME_TO_ID t with
    | some i => some i
    | none =>
      let tl := pyLower t
      (TEAM_NAME_TO_ID.find? (fun e => pyLower e.1 == tl)).map (·.2)

/-- One list starts with another. -/
def listStartsWith : List Char → List Char → Bool
  | [], _ => true
  | _ :: _, [] => false
  | c :: cs, d :: ds => c == d && listStartsWith cs ds

/-- A contiguous occurrence of the needle somewhere in the hay. -/
def listContains (hay needle : List Char) : Bool :=
  match hay with
  | [] => needle.isEmpty
  | _ :: tl => listStartsWith needle hay || listContains tl needle

/-- Python substring containment: needle in hay. -/
def pyContains (hay needle : String) : Bool :=
  listContains hay.data needle.data

namespace Transform

/-- The replacements table of normalize_team_name in
src/transform_rankings.py, in source order. -/
def replacements : List (String × String) := [
  ("University of California, Berkeley", "University of California"),
  ("University of California, Los Angeles", "University of California-Los Angeles"),
  ("University of California, Irvine", "University of California-Irvine"),
  ("University of California, Santa Barbara", "University of California-Santa Barbara"),
  ("University of California, Davis", "University of California-Davis"),
  ("University of California, San Diego", "University of California-San Diego"),
  ("St. Francis College (NY)", "Saint Francis"),
  ("St. Francis", "Saint Francis"),
  ("California Baptist University", "California Baptist University"),
  ("Cal Baptist", "California Baptist"),
  ("CBU", "California Baptist University")]

/-- normalize_team_name from src/transform_rankings.py: strip, then the first
exact replacement from the table (the loop breaks on the first hit). -/
def normalize_team_name (team_name : String) : String :=
  if team_name == "" then team_name
  else
    let normalized := pyStrip team_name
    match replacements.find? (fun e => e.1 == normalized) with
    | some e => e.2
    | none => normalized

/-- The partial-match elif chain of find_team_id in src/transform_rankings.py,
evaluated for one candidate mapped name.  Every branch of the chain returns the
same candidate's id, so the chain collapses to this disjunction. -/
def partialMatch (t mapped : String) : Bool :=
  (pyContains t "USC" && pyContains mapped "USC") ||
  (pyContains t "UCLA" && pyContains mapped "UCLA") ||
  (pyContains t "Stanford" && pyContains mapped "Stanford") ||
  (pyContains t "Berkeley" &&
    (pyContains mapped "UC Berkeley" || pyContains mapped "California")) ||
  (pyContains t "Irvine" && pyContains mapped "Irvine") ||
  (pyContains t "Santa Barbara" &&
    (pyContains mapped "UCSB" || pyContains mapped "Santa Barbara")) ||
  (pyContains t "Davis" && pyContains mapped "Davis") ||
  (pyContains t "San Diego" && pyContains mapped "San Diego") ||
  (pyContains t "Pepperdine" && pyContains mapped "Pepperdine") ||
  (pyContains t "Loyola" &&
    (pyContains mapped "LMU" || pyContains mapped "Loyola")) ||
  (pyContains t "Long Beach" && pyContains mapped "Long Beach") ||
  (pyContains t "Naval Academy" &&
    (pyContains mapped "Navy" || pyContains mapped "Naval")) ||
  (pyContains t "Francis" && pyContains mapped "Francis")

/-- find_team_id from src/transform_rankings.py: empty input is unmapped; then
exact match; then exact match on the normalized name; then the first
case-insensitive match; then the first candidate fired by the partial-match
chain; otherwise None. -/
def find_team_id (team_name : String) (mappings : List (String × ℤ)) :
    Option ℤ :=
  if team_name == "" then none
  else
    match lookupAssoc mappings team_name with
    | some i => some i
    | none =>
      match lookupAssoc mappings (normalize_team_name team_name) with
      | some i => some i
      | none =>
        let tl := pyLower team_name
        match mappings.find? (fun e => pyLower e.1 == tl) with
        | some e => some e.2
        | none =>
          (mappings.find? (fun e => partialMatch team_name e.1)).map (·.2)

end Transform

/-- The process-wide CACHE dict: fingerprint to (payload, insertion time). -/
abbrev CacheState := List (String × (PyVal × ℚ))

/-- CACHE_TTL from src/server.py (seconds). -/
def CACHE_TTL : ℚ := 3600

/-- CACHE_MAX_SIZE from src/server.py. -/
def CACHE_MAX_SIZE : ℕ := 100

/-- cache_key_generator from src/server.py.  The handlers only ever pass
strings, and str() on a string is the identity, so the joined key string is
the underscore-join of the arguments.  The md5 hexdigest is a deterministic
function of that joined string; no claim depends on any other property of the
digest (the two concrete digests claimed distinct below are distinct for real
md5 as well), so the digest is modelled as the joined string itself. -/
def cache_key_generator (args : List String) : String :=
  String.intercalate "_" args

/-- CACHE[key] as an optional (payload, timestamp) pair. -/
def lookupEntry (c : CacheState) (k : String) : Option (PyVal × ℚ) :=
  lookupAssoc c k

/-- del CACHE[key]: removes the (unique) entry with the key. -/
def eraseKey (c : CacheState) (k : String) : CacheState :=
  c.eraseP (fun e => e.1 == k)

/-- get_from_cache from src/server.py, with time.time() passed explicitly.
Returns the value handed back (None on a miss) together with the cache state
after the call (an expired entry is deleted). -/
def get_from_cache (c : CacheState) (key : String) (now : ℚ) :
    Option PyVal × CacheState :=
  match lookupEntry c key with
  | some (data, ts) =>
    if now - ts < CACHE_TTL then (some data, c) else (none, eraseKey c key)
  | none => (none, c)

/-- The eviction scan of set_cache:
min(CACHE.keys(), key=lambda k: CACHE[k][1]).  Python min keeps the first
minimizer in iteration (insertion) order; on an empty dict it would raise,
which is unreachable because set_cache only scans when the cache holds at
least CACHE_MAX_SIZE entries. -/
def oldestKey (c : CacheState) : Option String :=
  match c with
  | [] => none
  | e :: es => some ((es.foldl (fun b x => if x.2.2 < b.2.2 then x else b) e).1)

/-- set_cache from src/server.py: evict the oldest entry when the cache is at
capacity, then insert (or overwrite) under the key with the current time. -/
def set_cache (c : CacheState) (key : String) (data : PyVal) (now : ℚ) :
    CacheState :=
  let c1 :=
    if CACHE_MAX_SIZE ≤ c.length then
      match oldestKey c with
      | some ok2 => eraseKey c ok2
      | none => c
    else c
  dictSet c1 key (data, now)

/-- clear_cache from src/server.py: empties the cache and reports the old
size in the response body. -/
def clear_cache (c : CacheState) : PyVal × CacheState :=
  (pdict [
    ("message", pstr ("Cache cleared successfully. Removed " ++
      toString c.length ++ " entries.")),
    ("cache_size", pint 0)], [])

/-- str(raw_rank).strip().lower() applied to a document's Rank value. -/
def normalizeRank (v : PyVal) : String :=
  pyLower (pyStrip (pyStrOf v))

/-- The doc_map of fetch_collection_as_aligned_list: normalized rank string to
document, built over the fetched documents in order, last write winning. -/
def buildDocMap (docs : List Doc) : List (String × Doc) :=
  docs.foldl (fun m d => dictSet m (normalizeRank (pyGet d "Rank")) d) []

/-- The all-null row emitted for a rank with no matching document: the rank
key plus the 21 header columns, all None. -/
def nullRow (rank : String) : PyVal :=
  pdict (("rank", pstr rank) :: RANK_ORDER.map (fun h => (h, pnull)))

/-- The is-None-or-empty-string test of the field loop (val is None or
val == ""). -/
def isNullOrEmpty : PyVal → Bool
  | pnull => true
  | pstr s => s == ""
  | _ => false

/-- Conversion of a single field value in the matched-document branch: None
and "" become None; any other value goes through float()/int(), and an
unconvertible value raises — modelled as Except.error, which the handler's
except clause turns into an HTTP 500. -/
def convertField (is_float : Bool) (v : PyVal) : Except String PyVal :=
  if isNullOrEmpty v then .ok pnull
  else if is_float then
    match pyFloat v with
    | some q => .ok (prat q)
    | none => .error "could not convert value to float"
  else
    match pyInt v with
    | some n => .ok (pint n)
    | none => .error "invalid literal for int"

/-- The field loop of the matched-document branch, accumulating the clean_row
dict (which starts as the single rank field) over the document's fields. -/
def buildRow (is_float : Bool) (acc : List (String × PyVal)) :
    List (String × PyVal) → Except String (List (String × PyVal))
  | [] => .ok acc
  | (k, v) :: rest =>
    if k == "Rank" then buildRow is_float acc rest
    else
      match convertField is_float v with
      | .ok w => buildRow is_float (dictSet acc k w) rest
      | .error e => .error e

/-- The row emitted for one canonical rank: the all-null row when no document
matches, else the converted copy of the matching document. -/
def rowFor (is_float : Bool) (docMap : List (String × Doc)) (rank : String) :
    Except String PyVal :=
  match lookupAssoc docMap rank with
  | none => .ok (nullRow rank)
  | some doc => (buildRow is_float [("rank", pstr rank)] doc).map pdict

/-- The rank loop of fetch_collection_as_aligned_list, with the Python
exception propagation: an error in any row aborts the whole call. -/
def alignRows (is_float : Bool) (docMap : List (String × Doc)) :
    List String → Except String (List PyVal)
  | [] => .ok []
  | r :: rs =>
    match rowFor is_float docMap r with
    | .error e => .error e
    | .ok row =>
      match alignRows is_float docMap rs with
      | .error e => .error e
      | .ok rest => .ok (row :: rest)

/-- fetch_collection_as_aligned_list from src/server.py, applied to the
fetched document list of the collection (collection.find with _id excluded). -/
def fetch_collection_as_aligned_list (docs : List Doc) (is_float : Bool) :
    Except String (List PyVal) :=
  alignRows is_float (buildDocMap docs) RANK_ORDER

/-- An HTTP response as the handlers produce it: status code and JSON body. -/
abbrev Resp := ℕ × PyVal

/-- The error body produced by every handler's except clause. -/
def errBody (msg : String) : PyVal :=
  pdict [("error", pstr msg)]

/-- The result_data dict of the matrix endpoint. -/
def matrixResultData (delim prob : List PyVal) : PyVal :=
  pdict [
    ("headers", plist (RANK_ORDER.map pstr)),
    ("probData", plist prob),
    ("delimData", plist delim)]

/-- The database path of the matrix endpoint: fetch the Delim collection as
integers, the Probabilities collection as floats, assemble result_data, cache
it, return 200; any raised conversion error becomes a 500 error body. -/
def matrixDbPath (c1 : CacheState) (now : ℚ) (delimDocs probDocs : List Doc)
    (key : String) : Resp × CacheState :=
  match fetch_collection_as_aligned_list delimDocs false with
  | .error e => ((500, errBody e), c1)
  | .ok delim =>
    match fetch_collection_as_aligned_list probDocs true with
    | .error e => ((500, errBody e), c1)
    | .ok prob =>
      let rd := matrixResultData delim prob
      ((200, rd), set_cache c1 key rd now)

/-- get_matrix from src/server.py (GET /api/matrix): look the fingerprint up
in the cache and serve the cached payload when it is truthy, else take the
database path.  The cache state threads through the expiry deletion of the
lookup and the store of the recompute. -/
def get_matrix (c : CacheState) (now : ℚ) (delimDocs probDocs : List Doc) :
    Resp × CacheState :=
  let key := cache_key_generator ["matrix", "v1"]
  match get_from_cache c key now with
  | (some v, c1) =>
    if pyTruthy v then ((200, v), c1)
    else matrixDbPath c1 now delimDocs probDocs key
  | (none, c1) => matrixDbPath c1 now delimDocs probDocs key

/-- The pairwise lookup key of the matches endpoint, built from the two parsed
rank inputs after decrementing each by one. -/
def matchesKey (r c : ℤ) : String :=
  toString (r - 1) ++ "_" ++ toString (c - 1)

/-- The result_data dict of the matches endpoint. -/
def matchesResultData (games : PyVal) (cnt : ℕ) (row col : String) : PyVal :=
  pdict [
    ("matches", games),
    ("count", pint cnt),
    ("row_rank", pstr row),
    ("col_rank", pstr col)]

/-- The database path of the matches endpoint: parse both rank inputs with
int() (a parse failure raises, 500), form the decremented key, read the first
document of the matches collection (an empty collection raises IndexError,
500), index it by the key (an absent key raises KeyError, 500), take len() of
the value, cache and return. -/
def matchesDbPath (c1 : CacheState) (now : ℚ) (matchesDocs : List Doc)
    (row_rank col_rank key : String) : Resp × CacheState :=
  match pyParseIntString row_rank, pyParseIntString col_rank with
  | some r, some c =>
    match matchesDocs.head? with
    | none => ((500, errBody "list index out of range"), c1)
    | some d =>
      match lookupField d (matchesKey r c) with
      | none => ((500, errBody ("KeyError: " ++ matchesKey r c)), c1)
      | some games =>
        match pyLen games with
        | none => ((500, errBody "object of this type has no len()"), c1)
        | some n =>
          let rd := matchesResultData games n row_rank col_rank
          ((200, rd), set_cache c1 key rd now)
  | _, _ => ((500, errBody "invalid literal for int() with base 10"), c1)

/-- get_matches from src/server.py (GET /api/matches/row/col). -/
def get_matches (c : CacheState) (now : ℚ) (matchesDocs : List Doc)
    (row_rank col_rank : String) : Resp × CacheState :=
  let key := cache_key_generator ["matches", row_rank, col_rank]
  match get_from_cache c key now with
  | (some v, c1) =>
    if pyTruthy v then ((200, v), c1)
    else matchesDbPath c1 now matchesDocs row_rank col_rank key
  | (none, c1) => matchesDbPath c1 now matchesDocs row_rank col_rank key

/-- A calendar date as datetime.strptime produces it. -/
structure PyDate where
  year : ℤ
  month : ℕ
  day : ℕ

/-- Gregorian leap year. -/
def isLeap (y : ℤ) : Bool :=
  (y % 4 == 0 && y % 100 != 0) || y % 400 == 0

/-- Days in a month, for strptime's validation. -/
def daysInMonth (y : ℤ) (m : ℕ) : ℕ :=
  if m = 2 then (if isLeap y then 29 else 28)
  else if m = 4 ∨ m = 6 ∨ m = 9 ∨ m = 11 then 30
  else 31

/-- A (year, month, day) triple passes strptime's calendar validation. -/
def validDate (y : ℤ) (m d : ℕ) : Bool :=
  1 ≤ m && m ≤ 12 && 1 ≤ d && d ≤ daysInMonth y m

/-- One numeric strptime field: nonempty digit run of bounded width. -/
def parseDateField (s : String) (maxLen : ℕ) : Option ℕ :=
  if s.data ≠ [] ∧ s.data.length ≤ maxLen ∧ allDigits s.data then
    some (digitsToNat s.data)
  else none

/-- datetime.strptime(s, "%Y-%m-%d"): three dash-separated numeric fields with
calendar validation; None models the ValueError. -/
def pyStrptimeYMD (s : String) : Option PyDate :=
  match pySplit s '-' with
  | [ys, ms, ds] =>
    match parseDateField ys 4, parseDateField ms 2, parseDateField ds 2 with
    | some y, some m, some d =>
      if validDate (y : ℤ) m d then some ⟨(y : ℤ), m, d⟩ else none
    | _, _, _ => none
  | _ => none

/-- datetime.strptime(s, "%m/%d/%Y"): three slash-separated numeric fields
with calendar validation; None models the ValueError. -/
def pyStrptimeMDY (s : String) : Option PyDate :=
  match pySplit s '/' with
  | [ms, ds, ys] =>
    match parseDateField ms 2, parseDateField ds 2, parseDateField ys 4 with
    | some m, some d, some y =>
      if validDate (y : ℤ) m d then some ⟨(y : ℤ), m, d⟩ else none
    | _, _, _ => none
  | _ => none

/-- Chronological order on dates is lexicographic on (year, month, day). -/
def dateLE (a b : PyDate) : Bool :=
  a.year < b.year ||
  (a.year == b.year && (a.month < b.month ||
    (a.month == b.month && a.day ≤ b.day)))

/-- Left-pad a numeral with zeros. -/
def padZeros (s : String) (w : ℕ) : String :=
  String.mk (List.replicate (w - s.length) '0') ++ s

/-- strftime("%Y-%m-%d"). -/
def strftimeYMD (d : PyDate) : String :=
  padZeros (toString d.year) 4 ++ "-" ++ padZeros (toString d.month) 2 ++
    "-" ++ padZeros (toString d.day) 2

/-- Python numeric cross-type equality (== between an arbitrary value and an
int): ints, floats and booleans compare numerically, everything else is
unequal to an int. -/
def pyEqInt (v : PyVal) (m : ℤ) : Bool :=
  match v with
  | pint n => n == m
  | prat q => q == (m : ℚ)
  | pbool b => (if b then (1 : ℤ) else 0) == m
  | _ => false

/-- ID_TO_TEAM_NAME.get(team_id, f"Team ...") with Python dict key equality
(an int key is found by any numerically equal value). -/
def canonName (tid : PyVal) : String :=
  match ID_TO_TEAM_NAME.find? (fun e => pyEqInt tid e.1) with
  | some e => e.2
  | none => "Team " ++ pyStrOf tid

/-- The historical rankings table loaded from mens_waterpolo_rankings.json:
date string to the list of per-team records of that date. -/
abbrev Rankings := List (String × List Doc)

/-- The team-id accumulation loop of the rankings endpoint: a truthy mapped id
is taken; otherwise the raw name is tried as a decimal id; otherwise the name
is dropped with only a warning. -/
def targetTeamIds (requested : List String) : List ℤ :=
  requested.foldl (fun acc nm =>
    match convert_team_name_to_id nm with
    | some i =>
      if i ≠ 0 then acc ++ [i]
      else
        match pyParseIntString nm with
        | some j => acc ++ [j]
        | none => acc
    | none =>
      match pyParseIntString nm with
      | some j => acc ++ [j]
      | none => acc) []

/-- One history record of the rankings endpoint. -/
def historyRecord (tid : PyVal) (cd : PyDate) (trank : PyVal) : PyVal :=
  pdict [
    ("team_id", tid),
    ("team_name", pstr (canonName tid)),
    ("date", pstr (strftimeYMD cd)),
    ("rank", trank)]

/-- The history accumulation of the rankings endpoint: every dated ranking
list whose date (the part of the key before the first dash, parsed as
month/day/year; unparsable keys are skipped) lies in the inclusive range
contributes one record per team whose team_id is among the targets. -/
def buildHistory (rankings : Rankings) (sd ed : PyDate) (target : List ℤ) :
    List PyVal :=
  rankings.foldl (fun h p =>
    match pyStrptimeMDY ((pySplit p.1 '-').headD p.1) with
    | none => h
    | some cd =>
      if dateLE sd cd && dateLE cd ed then
        h ++ p.2.foldl (fun h2 team =>
          let tid := pyGet team "team_id"
          if target.any (fun m => pyEqInt tid m) then
            h2 ++ [historyRecord tid cd (pyGet team "ranking")]
          else h2) []
      else h) []

/-- Sort key of the history sort: (record date, record team name), both
strings read back out of the record dict. -/
def historyKey (v : PyVal) : String × String :=
  match v with
  | pdict fs =>
    ((match lookupField fs "date" with | some (pstr s) => s | _ => ""),
     (match lookupField fs "team_name" with | some (pstr s) => s | _ => ""))
  | _ => ("", "")

/-- Lexicographic comparison of sort keys. -/
def keyLE (a b : String × String) : Bool :=
  a.1 < b.1 || (a.1 == b.1 && a.2 ≤ b.2)

/-- Stable insertion into a sorted list: a new element goes after every
existing element with a key not greater than its own. -/
def insSorted (x : PyVal) : List PyVal → List PyVal
  | [] => [x]
  | y :: ys =>
    if keyLE (historyKey y) (historyKey x) then y :: insSorted x ys
    else x :: y :: ys

/-- history.sort(key=lambda x: (x['date'], x['team_name'])): a stable sort by
that key; left-to-right stable insertion produces the same list as Python's
stable sort. -/
def sortHistory (h : List PyVal) : List PyVal :=
  h.foldl (fun acc x => insSorted x acc) []

/-- The result_data dict of the rankings endpoint. -/
def rankingsResultData (history : List PyVal) (requested : List String)
    (target : List ℤ) (start_date end_date : String) : PyVal :=
  pdict [
    ("data", plist history),
    ("count", pint history.length),
    ("requested_teams", plist (requested.map pstr)),
    ("target_team_ids", plist (target.map pint)),
    ("date_range", pdict [
      ("start", pstr start_date),
      ("end", pstr end_date)])]

/-- The database path of the rankings endpoint: parse both bound dates (a
failure raises, 500), split and map the requested team names, collect the
in-range history, sort it, cache and return. -/
def rankingsDbPath (c1 : CacheState) (now : ℚ) (rankings : Rankings)
    (team_names start_date end_date key : String) : Resp × CacheState :=
  match pyStrptimeYMD start_date, pyStrptimeYMD end_date with
  | some sd, some ed =>
    let requested := (pySplit team_names ',').map pyStrip
    let target := targetTeamIds requested
    let history := sortHistory (buildHistory rankings sd ed target)
    let rd := rankingsResultData history requested target start_date end_date
    ((200, rd), set_cache c1 key rd now)
  | _, _ =>
    ((500, errBody "time data does not match format"), c1)

/-- get_team_ranking_history from src/server.py
(GET /rankings/teams/start/end). -/
def get_team_ranking_history (c : CacheState) (now : ℚ) (rankings : Rankings)
    (team_names start_date end_date : String) : Resp × CacheState :=
  let key := cache_key_generator ["rankings", team_names, start_date, end_date]
  match get_from_cache c key now with
  | (some v, c1) =>
    if pyTruthy v then ((200, v), c1)
    else rankingsDbPath c1 now rankings team_names start_date end_date key
  | (none, c1) => rankingsDbPath c1 now rankings team_names start_date end_date key

/-- Numeric value of a modelled Python value, when it has one (int, float,
bool); used for the numeric == and the sorted() comparison of team ids. -/
def pyNumVal : PyVal → Option ℚ
  | pint n => some (n : ℚ)
  | prat q => some q
  | pbool b => some (if b then 1 else 0)
  | _ => none

/-- Python == as the team-id set needs it: numeric values compare numerically
across int/float/bool, strings structurally, None to None; container values
never reach an equality here because set.add raises on them first. -/
def pyEqShallow (a b : PyVal) : Bool :=
  match pyNumVal a, pyNumVal b with
  | some x, some y => x == y
  | _, _ =>
    match a, b with
    | pstr s, pstr t => s == t
    | pnull, pnull => true
    | _, _ => false

/-- The all_team_ids set accumulation of the teams endpoint: every truthy
team_id of every record is added; adding an unhashable (list or dict) value
raises, which the handler turns into a 500.  Set iteration order is
normalized away by the later sorted(), so the set is modelled as a
first-occurrence-ordered duplicate-free list. -/
def collectTeamIds (rankings : Rankings) : Except String (List PyVal) :=
  List.foldlM (fun s p =>
    List.foldlM (fun s2 team =>
      let tid := pyGet team "team_id"
      if pyTruthy tid then
        match tid with
        | plist _ => .error "unhashable type"
        | pdict _ => .error "unhashable type"
        | _ =>
          .ok (if s2.any (fun x => pyEqShallow x tid) then s2
               else s2 ++ [tid])
      else .ok s2) s p.2) [] rankings

/-- Stable insertion by numeric key, for the sorted() of the teams
endpoint. -/
def insSortedNum (x : ℚ × PyVal) : List (ℚ × PyVal) → List (ℚ × PyVal)
  | [] => [x]
  | y :: ys => if y.1 ≤ x.1 then y :: insSortedNum x ys else x :: y :: ys

/-- sorted(all_team_ids): defined when every collected id is numeric (the
transformed rankings carry int ids); a non-numeric id among numeric ones
would make the Python comparison raise, modelled as None.  (A collection of
ids that are all strings would sort in CPython; that case is not modelled,
and no claim depends on it.) -/
def sortIdsNum (ids : List PyVal) : Option (List PyVal) :=
  match ids.mapM (fun v => (pyNumVal v).map (fun q => (q, v))) with
  | none => none
  | some keyed =>
    some ((keyed.foldl (fun acc x => insSortedNum x acc) []).map (·.2))

/-- One entry of the teams list. -/
def teamsListEntry (tid : PyVal) : PyVal :=
  pdict [("team_id", tid), ("team_name", pstr (canonName tid))]

/-- The result_data dict of the teams endpoint.  jsonify renders the integer
keys of ID_TO_TEAM_NAME as JSON strings, which is how the response body
carries them. -/
def teamsResultData (sortedIds : List PyVal) : PyVal :=
  pdict [
    ("teams", plist (sortedIds.map teamsListEntry)),
    ("team_count", pint sortedIds.length),
    ("name_mappings", pdict (TEAM_NAME_TO_ID.map (fun e => (e.1, pint e.2)))),
    ("id_mappings",
      pdict (ID_TO_TEAM_NAME.map (fun e => (toString e.1, pstr e.2))))]

/-- The database path of the teams endpoint. -/
def teamsDbPath (c1 : CacheState) (now : ℚ) (rankings : Rankings)
    (key : String) : Resp × CacheState :=
  match collectTeamIds rankings with
  | .error e => ((500, errBody e), c1)
  | .ok ids =>
    match sortIdsNum ids with
    | none => ((500, errBody "not supported between instances"), c1)
    | some ss =>
      let rd := teamsResultData ss
      ((200, rd), set_cache c1 key rd now)

/-- get_available_teams from src/server.py (GET /api/teams). -/
def get_available_teams (c : CacheState) (now : ℚ) (rankings : Rankings) :
    Resp × CacheState :=
  let key := cache_key_generator ["available_teams", "v1"]
  match get_from_cache c key now with
  | (some v, c1) =>
    if pyTruthy v then ((200, v), c1) else teamsDbPath c1 now rankings key
  | (none, c1) => teamsDbPath c1 now rankings key

/-- Modelled from the spec: one aligned row of counts, rank-pair column to a
count or null, as the probability derivation consumes it. -/
abbrev CellRow := List (String × Option ℚ)

/-- Modelled from the spec: the earlier-generation probability derivation of
section 4.3.  The server iteration that derives probabilities at request time
from the raw win and game counts is part of this repository but is not under
src/ (the iteration under src/ serves the precomputed Probabilities
collection instead).  Per rank-pair cell: wins divided by games when both are
present and games is nonzero; otherwise the cell is null. -/
def deriveProbCell (wins games : Option ℚ) : Option ℚ :=
  match wins, games with
  | some w, some g => if g ≠ 0 then some (w / g) else none
  | _, _ => none

/-- Modelled from the spec: the games count aligned with a win cell — the
value in the same rank-pair column of the games row, a missing column and a
null cell both reading as absent. -/
def gamesCell (gameRow : CellRow) (k : String) : Option ℚ :=
  ((gameRow.find? (fun e => e.1 == k)).map (·.2)).join

/-- Modelled from the spec: cell-wise probability derivation over one aligned
row pair — every win-count column mapped to the probability derived against
the games value of the same column. -/
def deriveProbRow (winRow gameRow : CellRow) : CellRow :=
  winRow.map (fun e => (e.1, deriveProbCell e.2 (gamesCell gameRow e.1)))

/-- Field lookup through the pdict constructor of an assembled row. -/
def rowField (r : PyVal) (k : String) : Option PyVal :=
  match r with
  | pdict fs => lookupAssoc fs k
  | _ => none

/-- The call raised (landed in the handler's except clause). -/
def exceptIsError {α : Type} : Except String α → Bool
  | .error _ => true
  | .ok _ => false

/-! ### Association-list lemmas -/

theorem lookupAssoc_dictSet_self {α : Type} (fs : List (String × α)) (k : String)
    (v : α) : lookupAssoc (dictSet fs k v) k = some v := by
  induction fs with
  | nil => simp [dictSet, lookupAssoc]
  | cons e es ih =>
    by_cases h : e.1 = k
    · simp [dictSet, lookupAssoc, h]
    · have hb : (e.1 == k) = false := by simp [h]
      simp [dictSet, lookupAssoc, hb, ih]

theorem lookupAssoc_dictSet_ne {α : Type} (fs : List (String × α)) (k k' : String)
    (v : α) (hne : k' ≠ k) :
    lookupAssoc (dictSet fs k v) k' = lookupAssoc fs k' := by
  induction fs with
  | nil =>
    have hb : (k == k') = false := by simp [Ne.symm hne]
    simp [dictSet, lookupAssoc, hb]
  | cons e es ih =>
    by_cases h : e.1 = k
    · have hb : (k == k') = false := by simp [Ne.symm hne]
      have hb2 : (e.1 == k') = false := by simp [h, Ne.symm hne]
      simp [dictSet, lookupAssoc, h, hb, hb2]
    · have hb : (e.1 == k) = false := by simp [h]
      simp [dictSet, lookupAssoc, hb, ih]

theorem length_dictSet_le {α : Type} (fs : List (String × α)) (k : String) (v : α) :
    (dictSet fs k v).length ≤ fs.length + 1 := by
  induction fs with
  | nil => simp [dictSet]
  | cons e es ih =>
    by_cases h : e.1 = k
    · simp [dictSet, h]
    · have hb : (e.1 == k) = false := by simp [h]
      simp only [dictSet, hb, Bool.false_eq_true, if_false, List.length_cons]
      omega

theorem lookupAssoc_eq_none_of_not_mem {α : Type} (fs : List (String × α))
    (k : String) (h : k ∉ fs.map (fun e => e.1)) : lookupAssoc fs k = none := by
  induction fs with
  | nil => rfl
  | cons e es ih =>
    simp only [List.map_cons, List.mem_cons] at h
    push_neg at h
    have hb : (e.1 == k) = false := by simp [Ne.symm h.1]
    simp [lookupAssoc, hb, ih h.2]

theorem lookupAssoc_eraseP_self {α : Type} (fs : List (String × α)) (k : String)
    (hnd : (fs.map (fun e => e.1)).Nodup) :
    lookupAssoc (fs.eraseP (fun e => e.1 == k)) k = none := by
  induction fs with
  | nil => rfl
  | cons e es ih =>
    simp only [List.map_cons, List.nodup_cons] at hnd
    by_cases h : e.1 = k
    · rw [List.eraseP_cons_of_pos (by simp [h])]
      exact lookupAssoc_eq_none_of_not_mem es k (h ▸ hnd.1)
    · have hb : (e.1 == k) = false := by simp [h]
      rw [List.eraseP_cons_of_neg (by simp [hb])]
      simp [lookupAssoc, hb, ih hnd.2]

/-! ### Eviction-scan lemmas -/

theorem foldl_min_mem (e : String × (PyVal × ℚ)) (es : List (String × (PyVal × ℚ))) :
    es.foldl (fun b x => if x.2.2 < b.2.2 then x else b) e ∈ e :: es := by
  induction es generalizing e with
  | nil => simp
  | cons y ys ih =>
    simp only [List.foldl_cons]
    by_cases hy : y.2.2 < e.2.2
    · rw [if_pos hy]
      rcases List.mem_cons.mp (ih y) with h1 | h2
      · rw [h1]
        exact List.mem_cons_of_mem _ (List.mem_cons_self _ _)
      · exact List.mem_cons_of_mem _ (List.mem_cons_of_mem _ h2)
    · rw [if_neg hy]
      rcases List.mem_cons.mp (ih e) with h1 | h2
      · rw [h1]
        exact List.mem_cons_self _ _
      · exact List.mem_cons_of_mem _ (List.mem_cons_of_mem _ h2)

theorem foldl_min_le (e : String × (PyVal × ℚ)) (es : List (String × (PyVal × ℚ))) :
    ∀ x ∈ e :: es,
      (es.foldl (fun b x => if x.2.2 < b.2.2 then x else b) e).2.2 ≤ x.2.2 := by
  induction es generalizing e with
  | nil =>
    intro x hx
    simp only [List.mem_singleton] at hx
    subst hx
    exact le_refl _
  | cons y ys ih =>
    intro x hx
    simp only [List.foldl_cons]
    have hm1 : (if y.2.2 < e.2.2 then y else e).2.2 ≤ e.2.2 := by
      by_cases hy : y.2.2 < e.2.2
      · rw [if_pos hy]; exact le_of_lt hy
      · rw [if_neg hy]
    have hm2 : (if y.2.2 < e.2.2 then y else e).2.2 ≤ y.2.2 := by
      by_cases hy : y.2.2 < e.2.2
      · rw [if_pos hy]
      · rw [if_neg hy]; exact le_of_not_lt hy
    rcases List.mem_cons.mp hx with rfl | hx2
    · exact le_trans (ih _ _ (List.mem_cons_self _ _)) hm1
    · rcases List.mem_cons.mp hx2 with rfl | hx3
      · exact le_trans (ih _ _ (List.mem_cons_self _ _)) hm2
      · exact ih _ x (List.mem_cons_of_mem _ hx3)

theorem oldestKey_spec (c : CacheState) (hne : c ≠ []) :
    ∃ ek ev ets, oldestKey c = some ek ∧ (ek, (ev, ets)) ∈ c ∧
      ∀ x ∈ c, ets ≤ x.2.2 := by
  match c with
  | [] => exact absurd rfl hne
  | e :: es =>
    refine ⟨(es.foldl (fun b x => if x.2.2 < b.2.2 then x else b) e).1,
      (es.foldl (fun b x => if x.2.2 < b.2.2 then x else b) e).2.1,
      (es.foldl (fun b x => if x.2.2 < b.2.2 then x else b) e).2.2, ?_, ?_, ?_⟩
    · rfl
    · exact foldl_min_mem e es
    · exact foldl_min_le e es

/-! ### Cache lemmas -/

theorem lookupEntry_set_cache (c : CacheState) (k : String) (v : PyVal) (now : ℚ) :
    lookupEntry (set_cache c k v now) k = some (v, now) := by
  simp only [set_cache, lookupEntry]
  exact lookupAssoc_dictSet_self _ _ _

theorem set_cache_full_eq (c : CacheState) (k : String) (v : PyVal) (now : ℚ)
    (hfull : CACHE_MAX_SIZE ≤ c.length) :
    ∃ ek ev ets, oldestKey c = some ek ∧ (ek, (ev, ets)) ∈ c ∧
      (∀ x ∈ c, ets ≤ x.2.2) ∧
      set_cache c k v now = dictSet (eraseKey c ek) k (v, now) ∧
      (eraseKey c ek).length + 1 = c.length := by
  have hne : c ≠ [] := by
    intro h
    subst h
    simp [CACHE_MAX_SIZE] at hfull
  obtain ⟨ek, ev, ets, hok, hmem, hmin⟩ := oldestKey_spec c hne
  refine ⟨ek, ev, ets, hok, hmem, hmin, ?_, ?_⟩
  · simp only [set_cache, if_pos hfull, hok]
  · simp only [eraseKey]
    exact List.length_eraseP_add_one hmem (by simp)

theorem length_eraseKey_le (c : CacheState) (k : String) :
    (eraseKey c k).length ≤ c.length := by
  simp only [eraseKey]
  induction c with
  | nil => simp
  | cons e es ih =>
    by_cases h : e.1 = k
    · rw [List.eraseP_cons_of_pos (by simp [h])]
      simp
    · have hb : (e.1 == k) = false := by simp [h]
      rw [List.eraseP_cons_of_neg (by simp [hb])]
      simp only [List.length_cons]
      omega

/-! ### Claim theorems -/

/-- C2: get_from_cache returns a miss when the key is absent; returns the
stored value when the key is present and now minus the insertion time is under
the 3600-second TTL; and when the key is present but expired it deletes the
entry and returns a miss — so a lookup never returns an expired value, and an
expired entry is removed exactly at the lookup that observes it. -/
theorem get_from_cache_spec (c : CacheState) (k : String) (now : ℚ)
    (hnd : (c.map (fun e => e.1)).Nodup) :
    (lookupEntry c k = none → get_from_cache c k now = (none, c)) ∧
    (∀ v ts, lookupEntry c k = some (v, ts) → now - ts < CACHE_TTL →
      get_from_cache c k now = (some v, c)) ∧
    (∀ v ts, lookupEntry c k = some (v, ts) → ¬(now - ts < CACHE_TTL) →
      get_from_cache c k now = (none, eraseKey c k) ∧
        lookupEntry (eraseKey c k) k = none) ∧
    (∀ v, (get_from_cache c k now).1 = some v →
      ∃ ts, lookupEntry c k = some (v, ts) ∧ now - ts < CACHE_TTL) := by
  refine ⟨?_, ?_, ?_, ?_⟩
  · intro h
    simp [get_from_cache, h]
  · intro v ts h ht
    simp [get_from_cache, h, ht]
  · intro v ts h ht
    refine ⟨by simp [get_from_cache, h, ht], ?_⟩
    exact lookupAssoc_eraseP_self c k hnd
  · intro v hv
    cases h : lookupEntry c k with
    | none => simp [get_from_cache, h] at hv
    | some e =>
      obtain ⟨ev, ts⟩ := e
      by_cases ht : now - ts < CACHE_TTL
      · simp [get_from_cache, h, ht] at hv
        subst hv
        exact ⟨ts, rfl, ht⟩
      · simp [get_from_cache, h, ht] at hv

/-- Witness for C2: a fresh hit on a one-entry cache returns the stored value
and leaves the cache unchanged. -/
theorem get_from_cache_spec_witness :
    get_from_cache [("k", (pint 7, 0))] "k" 10 =
      (some (pint 7), [("k", (pint 7, 0))]) :=
  (get_from_cache_spec [("k", (pint 7, 0))] "k" 10 (by decide)).2.1
    (pint 7) 0 rfl (by norm_num [CACHE_TTL])

/-- C3: whenever the cache already holds at least the 100-entry capacity,
set_cache first evicts exactly one entry — one with the globally smallest
insertion timestamp (the first such in insertion order) — and then inserts the
new (value, timestamp) pair, which is always present in the result. -/
theorem set_cache_spec (c : CacheState) (k : String) (v : PyVal) (now : ℚ)
    (hfull : CACHE_MAX_SIZE ≤ c.length) :
    ∃ ek ev ets, oldestKey c = some ek ∧ (ek, (ev, ets)) ∈ c ∧
      (∀ x ∈ c, ets ≤ x.2.2) ∧
      set_cache c k v now = dictSet (eraseKey c ek) k (v, now) ∧
      (eraseKey c ek).length + 1 = c.length ∧
      lookupEntry (set_cache c k v now) k = some (v, now) := by
  obtain ⟨ek, ev, ets, hok, hmem, hmin, heq, hlen⟩ :=
    set_cache_full_eq c k v now hfull
  exact ⟨ek, ev, ets, hok, hmem, hmin, heq, hlen,
    lookupEntry_set_cache c k v now⟩

/-- Witness for C3: storing a 101st distinct key into a full 100-entry cache
leaves the new pair present. -/
theorem set_cache_spec_witness :
    lookupEntry (set_cache ((List.range 100).map
        (fun i : ℕ => (toString i, (pnull, (i : ℚ))))) "new" pnull 5000) "new"
      = some (pnull, 5000) := by
  obtain ⟨ek, ev, ets, hok, hmem, hmin, heq, hlen, hlook⟩ :=
    set_cache_spec ((List.range 100).map
      (fun i : ℕ => (toString i, (pnull, (i : ℚ))))) "new" pnull 5000
      (by rw [List.length_map, List.length_range]; decide)
  exact hlook

/-- C9: from any cache state with at most 100 entries, each operation —
lookup with its expiry deletion, store with its eviction, and clear — leaves
at most 100 entries. -/
theorem cache_bounded (c : CacheState) (k : String) (v : PyVal) (now : ℚ)
    (hle : c.length ≤ CACHE_MAX_SIZE) :
    (get_from_cache c k now).2.length ≤ CACHE_MAX_SIZE ∧
    (set_cache c k v now).length ≤ CACHE_MAX_SIZE ∧
    (clear_cache c).2.length ≤ CACHE_MAX_SIZE := by
  refine ⟨?_, ?_, by simp [clear_cache]⟩
  · cases h : lookupEntry c k with
    | none => simpa [get_from_cache, h] using hle
    | some e =>
      obtain ⟨ev, ts⟩ := e
      by_cases ht : now - ts < CACHE_TTL
      · simpa [get_from_cache, h, ht] using hle
      · simp only [get_from_cache, h, if_neg ht]
        exact le_trans (length_eraseKey_le c k) hle
  · by_cases hfull : CACHE_MAX_SIZE ≤ c.length
    · obtain ⟨ek, ev, ets, hok, hmem, hmin, heq, hlen⟩ :=
        set_cache_full_eq c k v now hfull
      rw [heq]
      have h1 := length_dictSet_le (eraseKey c ek) k (v, now)
      have h2 : c.length = CACHE_MAX_SIZE := le_antisymm hle hfull
      omega
    · simp only [set_cache, if_neg hfull]
      have h1 := length_dictSet_le c k (v, now)
      have h2 : c.length < CACHE_MAX_SIZE := lt_of_not_le hfull
      omega

/-- Witness for C9 at the empty cache. -/
theorem cache_bounded_witness :
    (get_from_cache [] "k" 0).2.length ≤ CACHE_MAX_SIZE ∧
    (set_cache [] "k" pnull 0).length ≤ CACHE_MAX_SIZE ∧
    (clear_cache []).2.length ≤ CACHE_MAX_SIZE :=
  cache_bounded [] "k" pnull 0 (by simp [CACHE_MAX_SIZE])

/-- C4 counterexample: two distinct argument sequences are guaranteed to
produce the same cache key, because the key depends only on the
underscore-join of the arguments: ("a", "b") and ("a_b",) join to the same
string, so the md5 digest of that string is the same key for both. -/
theorem cache_key_generator_counterexample :
    cache_key_generator ["a", "b"] = cache_key_generator ["a_b"] ∧
      (["a", "b"] : List String) ≠ ["a_b"] :=
  ⟨rfl, by decide⟩

/-- C4 amended: cache_key_generator is deterministic — identical argument
sequences always yield the identical key — and the key depends only on the
underscore-join of the argument strings, so distinct sequences with equal
joins are guaranteed to collide, while sequences with different joins (such as
("matches","3","5") versus ("matches","5","3")) feed the digest different
inputs and yield different keys. -/
theorem cache_key_generator_spec :
    (∀ xs ys : List String, xs = ys →
      cache_key_generator xs = cache_key_generator ys) ∧
    (∀ xs ys : List String,
      String.intercalate "_" xs = String.intercalate "_" ys →
      cache_key_generator xs = cache_key_generator ys) ∧
    cache_key_generator ["matches", "3", "5"] ≠
      cache_key_generator ["matches", "5", "3"] := by
  refine ⟨fun xs ys h => by rw [h], fun xs ys h => h, by decide⟩

/-- Witness for C4: the join-equality collision and the order-sensitivity at
concrete arguments. -/
theorem cache_key_generator_spec_witness :
    cache_key_generator ["a", "b"] = cache_key_generator ["a_b"] ∧
    cache_key_generator ["matches", "3", "5"] ≠
      cache_key_generator ["matches", "5", "3"] :=
  ⟨cache_key_generator_spec.2.1 ["a", "b"] ["a_b"] rfl,
    cache_key_generator_spec.2.2⟩

/-- C5: the matches endpoint forms its document lookup key by decrementing
each parsed rank by one and joining with an underscore (ranks "4" and "10"
give key "3_9"), and a rank pair whose key is absent from the matches
document fails the request with a 500 error body instead of returning an
empty result.  (The cache-miss hypothesis puts the handler on its database
path; the parse hypotheses are int() succeeding on the two rank inputs.) -/
theorem get_matches_spec (c : CacheState) (now : ℚ) (d : Doc)
    (rest : List Doc) (row col : String) (r cc : ℤ)
    (hmiss : lookupEntry c (cache_key_generator ["matches", row, col]) = none)
    (hr : pyParseIntString row = some r)
    (hc : pyParseIntString col = some cc)
    (habs : lookupField d (matchesKey r cc) = none) :
    matchesKey 4 10 = "3_9" ∧
    get_matches c now (d :: rest) row col =
      ((500, errBody ("KeyError: " ++ matchesKey r cc)), c) := by
  refine ⟨by decide, ?_⟩
  simp [get_matches, get_from_cache, hmiss, matchesDbPath, hr, hc, habs]

/-- Witness for C5: ranks "4" and "10" against a matches document without the
"3_9" key give a 500 with an error body. -/
theorem get_matches_spec_witness :
    get_matches [] 0 [[("0_0", plist [])]] "4" "10" =
      ((500, errBody ("KeyError: " ++ matchesKey 4 10)), []) :=
  (get_matches_spec [] 0 [("0_0", plist [])] [] "4" "10" 4 10
    rfl (by decide) (by decide) rfl).2

/-- C7 counterexample: "USC Trojans" shares the recognized token "USC" with
the mapped candidate "USC" and matches no earlier tier, yet the server
resolver reports unmapped — convert_team_name_to_id has no substring tier. -/
theorem convert_team_name_heuristic_gap :
    convert_team_name_to_id "USC Trojans" = none ∧
      ("USC", (1 : ℤ)) ∈ TEAM_NAME_TO_ID ∧
      pyContains "USC Trojans" "USC" = true ∧
      pyContains "USC" "USC" = true := by
  refine ⟨by decide, by decide, by decide, by decide⟩

/-- C7 amended: the server resolver convert_team_name_to_id has only the
exact and case-insensitive tiers, first match winning, and reports unmapped
when both fail — the substring heuristic exists only in the offline
transform's find_team_id, where an input sharing a recognized distinguishing
token (for example "USC") with a mapped candidate name, matching no earlier
tier, resolves to a mapped identifier rather than unmapped. -/
theorem team_resolution_spec :
    (∀ (t : String) (i : ℤ), t ≠ "" →
      lookupAssoc TEAM_NAME_TO_ID (pyStrip t) = some i →
      convert_team_name_to_id t = some i) ∧
    (∀ t : String,
      lookupAssoc TEAM_NAME_TO_ID (pyStrip t) = none →
      TEAM_NAME_TO_ID.find?
        (fun e => pyLower e.1 == pyLower (pyStrip t)) = none →
      convert_team_name_to_id t = none) ∧
    (∀ (t : String) (m : List (String × ℤ)), t ≠ "" →
      lookupAssoc m t = none →
      lookupAssoc m (Transform.normalize_team_name t) = none →
      m.find? (fun e => pyLower e.1 == pyLower t) = none →
      (∃ p ∈ m, pyContains t "USC" = true ∧ pyContains p.1 "USC" = true) →
      (Transform.find_team_id t m).isSome = true) := by
  refine ⟨?_, ?_, ?_⟩
  · intro t i ht hx
    have hb : (t == "") = false := by simpa using ht
    simp [convert_team_name_to_id, hb, hx]
  · intro t hx hci
    by_cases ht : t = ""
    · simp [convert_team_name_to_id, ht]
    · have hb : (t == "") = false := by simpa using ht
      simp [convert_team_name_to_id, hb, hx, hci]
  · intro t m ht h1 h2 h3 hex
    have hb : (t == "") = false := by simpa using ht
    obtain ⟨p, hp, hct, hcp⟩ := hex
    have hfind : (m.find? (fun e => Transform.partialMatch t e.1)).isSome
        = true := by
      rw [List.find?_isSome]
      exact ⟨p, hp, by simp [Transform.partialMatch, hct, hcp]⟩
    simp only [Transform.find_team_id, hb, Bool.false_eq_true, if_false,
      h1, h2, h3]
    simpa using hfind

/-- Witness for C7: an exact hit resolves on the server resolver, and the
transform's heuristic resolves a token-sharing input that no earlier tier
matches. -/
theorem team_resolution_spec_witness :
    convert_team_name_to_id "UCLA" = some 2 ∧
    (Transform.find_team_id "USC Trojans" [("USC", 1)]).isSome = true :=
  ⟨team_resolution_spec.1 "UCLA" 2 (by decide) (by decide),
   team_resolution_spec.2.2 "USC Trojans" [("USC", 1)] (by decide)
     (by decide) (by decide) (by decide)
     ⟨("USC", 1), by simp, by decide, by decide⟩⟩

/-- The derived probability of a column is the cell-wise derivation of the
win cell against the aligned games cell. -/
theorem lookupAssoc_deriveProbRow (W G : CellRow) (k : String) :
    lookupAssoc (deriveProbRow W G) k =
      (lookupAssoc W k).map (fun w => deriveProbCell w (gamesCell G k)) := by
  induction W with
  | nil => rfl
  | cons e es ih =>
    by_cases h : e.1 = k
    · simp [deriveProbRow, lookupAssoc, h]
    · have hb : (e.1 == k) = false := by simp [h]
      simpa [deriveProbRow, lookupAssoc, hb] using ih

/-- C8 (spec-modelled): per rank-pair cell of the derived probability row,
the cell is null when games is zero or wins or games is missing, and equals
wins divided by games exactly when games is positive and wins is present. -/
theorem derive_probability_spec (W G : CellRow) (k : String) (w : Option ℚ)
    (hw : lookupAssoc W k = some w) :
    (∀ wv gv, w = some wv → gamesCell G k = some gv → 0 < gv →
      lookupAssoc (deriveProbRow W G) k = some (some (wv / gv))) ∧
    ((w = none ∨ gamesCell G k = none ∨ gamesCell G k = some 0) →
      lookupAssoc (deriveProbRow W G) k = some none) := by
  have hmain := lookupAssoc_deriveProbRow W G k
  rw [hw] at hmain
  simp only [Option.map_some'] at hmain
  refine ⟨?_, ?_⟩
  · intro wv gv hwv hgv hpos
    rw [hmain, hwv, hgv]
    simp [deriveProbCell, ne_of_gt hpos]
  · intro hcase
    rw [hmain]
    rcases hcase with h | h | h
    · rw [h]
      rfl
    · rw [h]
      cases w with
      | none => rfl
      | some wv => rfl
    · rw [h]
      cases w with
      | none => rfl
      | some wv => simp [deriveProbCell]

/-- Witness for C8: wins 3 over games 4 in the same column derives exactly
three quarters. -/
theorem derive_probability_spec_witness :
    lookupAssoc (deriveProbRow [("2", some 3)] [("2", some 4)]) "2" =
      some (some (3 / 4 : ℚ)) :=
  (derive_probability_spec [("2", some 3)] [("2", some 4)] "2" (some 3)
    rfl).1 3 4 rfl rfl (by norm_num)

/-! ### Assembler lemmas -/

theorem RANK_ORDER_length : RANK_ORDER.length = 21 := rfl

theorem alignRows_ok_length (isf : Bool) (dm : List (String × Doc))
    (rs : List String) (rows : List PyVal)
    (h : alignRows isf dm rs = .ok rows) : rows.length = rs.length := by
  induction rs generalizing rows with
  | nil =>
    simp only [alignRows] at h
    injection h with h
    subst h
    rfl
  | cons r rs ih =>
    cases h1 : rowFor isf dm r with
    | error e => simp [alignRows, h1] at h
    | ok row =>
      cases h2 : alignRows isf dm rs with
      | error e => simp [alignRows, h1, h2] at h
      | ok rest =>
        simp only [alignRows, h1, h2] at h
        injection h with h
        subst h
        simp [ih rest h2]

theorem alignRows_ok_get (isf : Bool) (dm : List (String × Doc))
    (rs : List String) (rows : List PyVal)
    (h : alignRows isf dm rs = .ok rows) :
    ∀ i, i < rs.length →
      rowFor isf dm (rs.getD i "") = .ok (rows.getD i pnull) := by
  induction rs generalizing rows with
  | nil =>
    intro i hi
    simp at hi
  | cons r rs ih =>
    cases h1 : rowFor isf dm r with
    | error e => simp [alignRows, h1] at h
    | ok row =>
      cases h2 : alignRows isf dm rs with
      | error e => simp [alignRows, h1, h2] at h
      | ok rest =>
        simp only [alignRows, h1, h2] at h
        injection h with h
        subst h
        intro i hi
        cases i with
        | zero => simpa using h1
        | succ n =>
          simp only [List.getD_cons_succ]
          exact ih rest h2 n (by simpa using Nat.lt_of_succ_lt_succ hi)

theorem alignRows_error_of_mem (isf : Bool) (dm : List (String × Doc))
    (rs : List String) (r : String) (hr : r ∈ rs) (msg : String)
    (h : rowFor isf dm r = .error msg) :
    ∃ m, alignRows isf dm rs = .error m := by
  induction rs with
  | nil => simp at hr
  | cons r0 rs ih =>
    cases h1 : rowFor isf dm r0 with
    | error e => exact ⟨e, by simp [alignRows, h1]⟩
    | ok row =>
      rcases List.mem_cons.mp hr with rfl | hmem
      · rw [h] at h1
        simp at h1
      · obtain ⟨m, hm⟩ := ih hmem
        exact ⟨m, by simp [alignRows, h1, hm]⟩

theorem buildRow_lookup_of_no_key (isf : Bool)
    (fields : List (String × PyVal)) :
    ∀ (acc row' : List (String × PyVal)) (k : String),
      buildRow isf acc fields = .ok row' →
      (∀ kv ∈ fields, kv.1 ≠ k) →
      lookupAssoc row' k = lookupAssoc acc k := by
  induction fields with
  | nil =>
    intro acc row' k h hk
    simp only [buildRow] at h
    injection h with h
    subst h
    rfl
  | cons e rest ih =>
    intro acc row' k h hk
    obtain ⟨k1, v1⟩ := e
    by_cases hR : k1 = "Rank"
    · have hb : (k1 == "Rank") = true := by simp [hR]
      simp only [buildRow, hb, if_true] at h
      exact ih acc row' k h (fun kv hkv => hk kv (List.mem_cons_of_mem _ hkv))
    · have hb : (k1 == "Rank") = false := by simp [hR]
      simp only [buildRow, hb, Bool.false_eq_true, if_false] at h
      cases hc : convertField isf v1 with
      | error e => rw [hc] at h; simp at h
      | ok w =>
        rw [hc] at h
        have hne : k ≠ k1 :=
          fun hEq => (hk (k1, v1) (List.mem_cons_self _ _)) (by simp [hEq])
        rw [ih (dictSet acc k1 w) row' k h
          (fun kv hkv => hk kv (List.mem_cons_of_mem _ hkv))]
        exact lookupAssoc_dictSet_ne acc k1 k w hne

theorem buildRow_field_ok (isf : Bool) (fields : List (String × PyVal)) :
    ∀ (acc row' : List (String × PyVal)),
      buildRow isf acc fields = .ok row' →
      (fields.map (fun e => e.1)).Nodup →
      ∀ kv ∈ fields, kv.1 ≠ "Rank" →
        ∃ w, convertField isf kv.2 = .ok w ∧ lookupAssoc row' kv.1 = some w := by
  induction fields with
  | nil =>
    intro acc row' h hnd kv hkv
    simp at hkv
  | cons e rest ih =>
    intro acc row' h hnd kv hkv hkvR
    obtain ⟨k1, v1⟩ := e
    simp only [List.map_cons, List.nodup_cons] at hnd
    by_cases hR : k1 = "Rank"
    · have hb : (k1 == "Rank") = true := by simp [hR]
      simp only [buildRow, hb, if_true] at h
      rcases List.mem_cons.mp hkv with rfl | hmem
      · exact absurd hR hkvR
      · exact ih acc row' h hnd.2 kv hmem hkvR
    · have hb : (k1 == "Rank") = false := by simp [hR]
      simp only [buildRow, hb, Bool.false_eq_true, if_false] at h
      cases hc : convertField isf v1 with
      | error e => rw [hc] at h; simp at h
      | ok w =>
        rw [hc] at h
        rcases List.mem_cons.mp hkv with rfl | hmem
        · refine ⟨w, hc, ?_⟩
          rw [buildRow_lookup_of_no_key isf rest _ row' k1 h ?_]
          · exact lookupAssoc_dictSet_self acc k1 w
          · intro kv2 hkv2 hEq
            exact hnd.1 (hEq ▸ List.mem_map.mpr ⟨kv2, hkv2, rfl⟩)
        · exact ih (dictSet acc k1 w) row' h hnd.2 kv hmem hkvR

theorem buildRow_error_of_bad (isf : Bool) (fields : List (String × PyVal)) :
    ∀ acc : List (String × PyVal),
      (∃ kv ∈ fields, kv.1 ≠ "Rank" ∧ ∀ w, ¬convertField isf kv.2 = .ok w) →
      ∃ msg, buildRow isf acc fields = .error msg := by
  induction fields with
  | nil =>
    intro acc hbad
    obtain ⟨kv, hkv, _⟩ := hbad
    simp at hkv
  | cons e rest ih =>
    intro acc hbad
    obtain ⟨k1, v1⟩ := e
    obtain ⟨kv, hkv, hkvR, hkvBad⟩ := hbad
    by_cases hR : k1 = "Rank"
    · have hb : (k1 == "Rank") = true := by simp [hR]
      rcases List.mem_cons.mp hkv with rfl | hmem
      · exact absurd hR hkvR
      · obtain ⟨m, hm⟩ := ih acc ⟨kv, hmem, hkvR, hkvBad⟩
        exact ⟨m, by simp [buildRow, hb, hm]⟩
    · have hb : (k1 == "Rank") = false := by simp [hR]
      cases hc : convertField isf v1 with
      | error e2 => exact ⟨e2, by simp [buildRow, hb, hc]⟩
      | ok w =>
        rcases List.mem_cons.mp hkv with rfl | hmem
        · exact absurd hc (hkvBad w)
        · obtain ⟨m, hm⟩ := ih (dictSet acc k1 w) ⟨kv, hmem, hkvR, hkvBad⟩
          exact ⟨m, by simp [buildRow, hb, hc, hm]⟩

theorem rowFor_none (isf : Bool) (dm : List (String × Doc)) (r : String)
    (h : lookupAssoc dm r = none) : rowFor isf dm r = .ok (nullRow r) := by
  simp [rowFor, h]

theorem rowFor_rank_field (isf : Bool) (dm : List (String × Doc)) (r : String)
    (row : PyVal) (h : rowFor isf dm r = .ok row)
    (hnr : ∀ d, lookupAssoc dm r = some d → ∀ kv ∈ d, kv.1 ≠ "rank") :
    rowField row "rank" = some (pstr r) := by
  cases hd : lookupAssoc dm r with
  | none =>
    simp only [rowFor, hd] at h
    injection h with h
    subst h
    simp [rowField, nullRow, lookupAssoc]
  | some doc =>
    simp only [rowFor, hd] at h
    cases hb : buildRow isf [("rank", pstr r)] doc with
    | error e => rw [hb] at h; simp [Except.map] at h
    | ok row' =>
      rw [hb] at h
      simp only [Except.map] at h
      injection h with h
      subst h
      simp only [rowField]
      rw [buildRow_lookup_of_no_key isf doc _ row' "rank" hb (hnr doc hd)]
      simp [lookupAssoc]

theorem buildDocMap_mem (docs : List Doc) (r : String) (d : Doc)
    (h : lookupAssoc (buildDocMap docs) r = some d) : d ∈ docs := by
  suffices hgen : ∀ (l : List Doc) (m : List (String × Doc)),
      (∀ r' d', lookupAssoc m r' = some d' → d' ∈ docs) →
      (∀ d' ∈ l, d' ∈ docs) →
      ∀ r' d', lookupAssoc (l.foldl
        (fun m d => dictSet m (normalizeRank (pyGet d "Rank")) d) m) r'
          = some d' → d' ∈ docs by
    exact hgen docs []
      (by intro r' d' h'; simp [lookupAssoc] at h')
      (fun d' hd' => hd') r d h
  intro l
  induction l with
  | nil => intro m hm _ r' d' h'; exact hm r' d' h'
  | cons d0 ds ih =>
    intro m hm hl r' d' h'
    simp only [List.foldl_cons] at h'
    refine ih (dictSet m (normalizeRank (pyGet d0 "Rank")) d0) ?_
      (fun x hx => hl x (List.mem_cons_of_mem _ hx)) r' d' h'
    intro r2 d2 h2
    by_cases hk : r2 = normalizeRank (pyGet d0 "Rank")
    · rw [hk, lookupAssoc_dictSet_self] at h2
      injection h2 with h2
      subst h2
      exact hl d0 (List.mem_cons_self _ _)
    · rw [lookupAssoc_dictSet_ne _ _ _ _ hk] at h2
      exact hm r2 d2 h2

theorem isNullOrEmpty_false_of_pyFloat (v : PyVal) (q : ℚ)
    (h : pyFloat v = some q) : isNullOrEmpty v = false := by
  cases v with
  | pnull => simp [pyFloat] at h
  | pstr s =>
    by_cases hs : s = ""
    · subst hs
      have hnone : pyParseFloatString "" = none := by decide
      simp only [pyFloat, hnone] at h
      exact Option.noConfusion h
    · simp [isNullOrEmpty, hs]
  | pbool b => rfl
  | pint n => rfl
  | prat q2 => rfl
  | plist xs => rfl
  | pdict fs => rfl

theorem isNullOrEmpty_false_of_pyInt (v : PyVal) (n : ℤ)
    (h : pyInt v = some n) : isNullOrEmpty v = false := by
  cases v with
  | pnull => simp [pyInt] at h
  | pstr s =>
    by_cases hs : s = ""
    · subst hs
      have hnone : pyParseIntString "" = none := by decide
      simp only [pyInt, hnone] at h
      exact Option.noConfusion h
    · simp [isNullOrEmpty, hs]
  | pbool b => rfl
  | pint n2 => rfl
  | prat q => rfl
  | plist xs => rfl
  | pdict fs => rfl

/-- C1 counterexample: a collection whose rank-1 document carries a value
that int() cannot convert makes fetch_collection_as_aligned_list raise
instead of returning any list of rows at all, so the claim's "returns a list
of exactly 21 rows for every input collection" fails. -/
theorem aligned_list_shape_counterexample :
    fetch_collection_as_aligned_list
      [[("Rank", pstr "1"), ("wins", pstr "abc")]] false =
      .error "invalid literal for int" := by
  rfl

/-- C1 amended: whenever fetch_collection_as_aligned_list returns at all
(that is, every value it converts succeeds) and no document carries a field
literally named "rank" (such a field would overwrite the rank column), the
result has exactly 21 rows whose rank fields equal, in order, "1".."20",
"unranked", and a rank with no matching document yields the all-null row. -/
theorem aligned_list_shape (docs : List Doc) (isf : Bool) (rows : List PyVal)
    (hok : fetch_collection_as_aligned_list docs isf = .ok rows)
    (hnr : ∀ d ∈ docs, ∀ kv ∈ d, kv.1 ≠ "rank") :
    rows.length = 21 ∧
    (∀ i, i < 21 →
      rowField (rows.getD i pnull) "rank" =
        some (pstr (RANK_ORDER.getD i "")) ∧
      (lookupAssoc (buildDocMap docs) (RANK_ORDER.getD i "") = none →
        rows.getD i pnull = nullRow (RANK_ORDER.getD i ""))) := by
  have hlen := alignRows_ok_length isf (buildDocMap docs) RANK_ORDER rows hok
  refine ⟨by rw [hlen, RANK_ORDER_length], ?_⟩
  intro i hi
  have hget := alignRows_ok_get isf (buildDocMap docs) RANK_ORDER rows hok i
    (by rw [RANK_ORDER_length]; exact hi)
  constructor
  · apply rowFor_rank_field isf (buildDocMap docs) _ _ hget
    intro d hd kv hkv
    exact hnr d (buildDocMap_mem docs _ d hd) kv hkv
  · intro hnone
    have hnull := rowFor_none isf (buildDocMap docs)
      (RANK_ORDER.getD i "") hnone
    rw [hnull] at hget
    injection hget with hget
    exact hget.symm

/-- Witness for C1: the empty collection yields exactly the 21 all-null rows
in rank order, and the first row's rank field is "1". -/
theorem aligned_list_shape_witness :
    fetch_collection_as_aligned_list [] false = .ok (RANK_ORDER.map nullRow) ∧
    (RANK_ORDER.map nullRow).length = 21 ∧
    rowField ((RANK_ORDER.map nullRow).getD 0 pnull) "rank" =
      some (pstr "1") := by
  have hok : fetch_collection_as_aligned_list [] false =
      .ok (RANK_ORDER.map nullRow) := by rfl
  have h := aligned_list_shape [] false (RANK_ORDER.map nullRow) hok (by simp)
  refine ⟨hok, h.1, ?_⟩
  have h0 := (h.2 0 (by norm_num)).1
  have hr : RANK_ORDER.getD 0 "" = "1" := rfl
  rw [hr] at h0
  exact h0

/-- C6: for a document matching a rank, on a successful call every non-Rank
field of the document appears in the emitted row — a null or empty-string
source value as null, any other value converted to the requested numeric type
(float when is_float, else int) — and a value that cannot convert makes the
whole call raise (the handler's except clause turns that into an HTTP 500),
never a per-field null. -/
theorem assembler_field_conversion (docs : List Doc) (isf : Bool) (i : ℕ)
    (doc : Doc) (hi : i < 21)
    (hdoc : lookupAssoc (buildDocMap docs) (RANK_ORDER.getD i "") = some doc)
    (hnd : (doc.map (fun e => e.1)).Nodup) :
    (∀ rows, fetch_collection_as_aligned_list docs isf = .ok rows →
      ∀ kv ∈ doc, kv.1 ≠ "Rank" →
        (isNullOrEmpty kv.2 = true →
          rowField (rows.getD i pnull) kv.1 = some pnull) ∧
        (∀ q, isf = true → pyFloat kv.2 = some q →
          rowField (rows.getD i pnull) kv.1 = some (prat q)) ∧
        (∀ n, isf = false → pyInt kv.2 = some n →
          rowField (rows.getD i pnull) kv.1 = some (pint n))) ∧
    ((∃ kv ∈ doc, kv.1 ≠ "Rank" ∧ isNullOrEmpty kv.2 = false ∧
        (isf = true → pyFloat kv.2 = none) ∧
        (isf = false → pyInt kv.2 = none)) →
      ∃ msg, fetch_collection_as_aligned_list docs isf = .error msg) := by
  constructor
  · intro rows hok kv hkv hkvR
    have hget := alignRows_ok_get isf (buildDocMap docs) RANK_ORDER rows hok i
      (by rw [RANK_ORDER_length]; exact hi)
    simp only [rowFor, hdoc] at hget
    cases hb : buildRow isf [("rank", pstr (RANK_ORDER.getD i ""))] doc with
    | error e => rw [hb] at hget; simp [Except.map] at hget
    | ok row' =>
      rw [hb] at hget
      simp only [Except.map] at hget
      injection hget with hget
      obtain ⟨w, hcw, hlook⟩ :=
        buildRow_field_ok isf doc _ row' hb hnd kv hkv hkvR
      have hrowField : rowField (rows.getD i pnull) kv.1 = some w := by
        rw [← hget]
        simpa [rowField] using hlook
      refine ⟨?_, ?_, ?_⟩
      · intro hne
        have : convertField isf kv.2 = .ok pnull := by
          simp [convertField, hne]
        rw [this] at hcw
        injection hcw with hcw
        rw [hrowField, hcw]
      · intro q hisf hq
        subst hisf
        have hne := isNullOrEmpty_false_of_pyFloat kv.2 q hq
        have : convertField true kv.2 = .ok (prat q) := by
          simp [convertField, hne, hq]
        rw [this] at hcw
        injection hcw with hcw
        rw [hrowField, hcw]
      · intro n hisf hn
        subst hisf
        have hne := isNullOrEmpty_false_of_pyInt kv.2 n hn
        have : convertField false kv.2 = .ok (pint n) := by
          simp [convertField, hne, hn]
        rw [this] at hcw
        injection hcw with hcw
        rw [hrowField, hcw]
  · intro hbad
    obtain ⟨kv, hkv, hkvR, hne, hfl, hin⟩ := hbad
    have hnotok : ∀ w, ¬convertField isf kv.2 = .ok w := by
      intro w hw
      cases isf with
      | true => simp [convertField, hne, hfl rfl] at hw
      | false => simp [convertField, hne, hin rfl] at hw
    obtain ⟨msg, hmsg⟩ := buildRow_error_of_bad isf doc
      [("rank", pstr (RANK_ORDER.getD i ""))] ⟨kv, hkv, hkvR, hnotok⟩
    have hrfe : rowFor isf (buildDocMap docs) (RANK_ORDER.getD i "") =
        .error msg := by
      simp only [rowFor, hdoc, hmsg, Except.map]
    obtain ⟨m, hm⟩ := alignRows_error_of_mem isf (buildDocMap docs) RANK_ORDER
      (RANK_ORDER.getD i "")
      (by
        have : RANK_ORDER.getD i "" = RANK_ORDER[i] := by
          rw [List.getD_eq_getElem RANK_ORDER "" (by rw [RANK_ORDER_length]; exact hi)]
        rw [this]
        exact List.getElem_mem _)
      msg hrfe
    exact ⟨m, hm⟩

/-- Witness for C6: a document at rank 3 whose fields are an integer string
and a null; and a document with an unconvertible field raises. -/
theorem assembler_field_conversion_witness :
    exceptIsError (fetch_collection_as_aligned_list
      [[("Rank", pstr "3"), ("bad", pstr "x")]] false) = true := by
  obtain ⟨msg, hmsg⟩ := (assembler_field_conversion
    [[("Rank", pstr "3"), ("bad", pstr "x")]] false 2
    [("Rank", pstr "3"), ("bad", pstr "x")] (by norm_num) rfl
    (by decide)).2
    ⟨("bad", pstr "x"), List.mem_cons_of_mem _ (List.mem_cons_self _ _),
      by decide, by decide, fun h => by simp at h, fun _ => by decide⟩
  rw [hmsg]
  rfl

/-- C10: every cache-using handler tests the looked-up value for truthiness,
not presence: when the payload stored under the request's key is falsy (for
example an empty dict) and the entry is present and unexpired, the handler
takes the recompute-and-store path — it returns the freshly computed payload
and stores it over the falsy entry — so a falsy cached payload never produces
a handler-level cache hit.  (The success hypotheses let each database path
complete, making the recompute-and-store outcome visible.) -/
theorem handler_truthiness (now ts : ℚ) (p : PyVal)
    (hfresh : now - ts < CACHE_TTL) (hfalsy : pyTruthy p = false)
    (c1 : CacheState) (delimDocs probDocs : List Doc)
    (delim prob : List PyVal)
    (h1 : lookupEntry c1 (cache_key_generator ["matrix", "v1"]) = some (p, ts))
    (hdl : fetch_collection_as_aligned_list delimDocs false = .ok delim)
    (hpr : fetch_collection_as_aligned_list probDocs true = .ok prob)
    (c2 : CacheState) (d : Doc) (rest : List Doc) (row col : String)
    (r cc : ℤ) (games : PyVal) (n : ℕ)
    (h2 : lookupEntry c2 (cache_key_generator ["matches", row, col]) =
      some (p, ts))
    (hrow : pyParseIntString row = some r)
    (hcol : pyParseIntString col = some cc)
    (hgames : lookupField d (matchesKey r cc) = some games)
    (hlen : pyLen games = some n)
    (c3 : CacheState) (rankings : Rankings)
    (team_names start_date end_date : String) (sd ed : PyDate)
    (h3 : lookupEntry c3 (cache_key_generator
      ["rankings", team_names, start_date, end_date]) = some (p, ts))
    (hsd : pyStrptimeYMD start_date = some sd)
    (hed : pyStrptimeYMD end_date = some ed)
    (c4 : CacheState) (rankings2 : Rankings) (ids ss : List PyVal)
    (h4 : lookupEntry c4 (cache_key_generator ["available_teams", "v1"]) =
      some (p, ts))
    (hids : collectTeamIds rankings2 = .ok ids)
    (hss : sortIdsNum ids = some ss) :
    get_matrix c1 now delimDocs probDocs =
      ((200, matrixResultData delim prob),
        set_cache c1 (cache_key_generator ["matrix", "v1"])
          (matrixResultData delim prob) now) ∧
    get_matches c2 now (d :: rest) row col =
      ((200, matchesResultData games n row col),
        set_cache c2 (cache_key_generator ["matches", row, col])
          (matchesResultData games n row col) now) ∧
    (let requested := (pySplit team_names ',').map pyStrip
     let target := targetTeamIds requested
     let history := sortHistory (buildHistory rankings sd ed target)
     get_team_ranking_history c3 now rankings team_names start_date end_date =
      ((200, rankingsResultData history requested target start_date end_date),
        set_cache c3 (cache_key_generator
          ["rankings", team_names, start_date, end_date])
          (rankingsResultData history requested target start_date end_date)
          now)) ∧
    get_available_teams c4 now rankings2 =
      ((200, teamsResultData ss),
        set_cache c4 (cache_key_generator ["available_teams", "v1"])
          (teamsResultData ss) now) := by
  have hg1 : get_from_cache c1 (cache_key_generator ["matrix", "v1"]) now =
      (some p, c1) := by
    simp [get_from_cache, h1, hfresh]
  have hg2 : get_from_cache c2 (cache_key_generator ["matches", row, col])
      now = (some p, c2) := by
    simp [get_from_cache, h2, hfresh]
  have hg3 : get_from_cache c3 (cache_key_generator
      ["rankings", team_names, start_date, end_date]) now = (some p, c3) := by
    simp [get_from_cache, h3, hfresh]
  have hg4 : get_from_cache c4 (cache_key_generator ["available_teams", "v1"])
      now = (some p, c4) := by
    simp [get_from_cache, h4, hfresh]
  refine ⟨?_, ?_, ?_, ?_⟩
  · simp only [get_matrix, hg1, hfalsy, Bool.false_eq_true, if_false,
      matrixDbPath, hdl, hpr]
  · simp only [get_matches, hg2, hfalsy, Bool.false_eq_true, if_false,
      matchesDbPath, hrow, hcol, List.head?_cons, hgames, hlen]
  · simp only [get_team_ranking_history, hg3, hfalsy, Bool.false_eq_true,
      if_false, rankingsDbPath, hsd, hed]
  · simp only [get_available_teams, hg4, hfalsy, Bool.false_eq_true,
      if_false, teamsDbPath, hids, hss]

/-- Witness for C10: an empty dict stored fresh under each handler's key is
bypassed; each handler recomputes. -/
theorem handler_truthiness_witness :
    (get_matrix [("matrix_v1", (pdict [], 0))] 10 [] []).1 =
      (200, matrixResultData (RANK_ORDER.map nullRow)
        (RANK_ORDER.map nullRow)) ∧
    (get_matches [("matches_4_10", (pdict [], 0))] 10
        [[("3_9", plist [])]] "4" "10").1 =
      (200, matchesResultData (plist []) 0 "4" "10") ∧
    (get_available_teams [("available_teams_v1", (pdict [], 0))] 10 []).1 =
      (200, teamsResultData []) := by
  have h := handler_truthiness 10 0 (pdict []) (by norm_num [CACHE_TTL]) rfl
    [("matrix_v1", (pdict [], 0))] [] [] (RANK_ORDER.map nullRow)
    (RANK_ORDER.map nullRow) rfl rfl rfl
    [("matches_4_10", (pdict [], 0))] [("3_9", plist [])] [] "4" "10" 4 10
    (plist []) 0 rfl (by decide) (by decide) rfl rfl
    [("rankings_1_2024-01-01_2024-01-02", (pdict [], 0))] [] "1"
    "2024-01-01" "2024-01-02" ⟨2024, 1, 1⟩ ⟨2024, 1, 2⟩ rfl rfl rfl
    [("available_teams_v1", (pdict [], 0))] [] [] [] rfl rfl rfl
  exact ⟨congrArg Prod.fst h.1, congrArg Prod.fst h.2.1,
    congrArg Prod.fst h.2.2.2⟩
